import Mathlib

set_option maxHeartbeats 1000000

/-!
Verification of the chunk-addressing core of the entwine point-cloud indexer:
`ChunkInfo` and `Structure` from `src/entwine/types/structure.cpp`.

Modelling conventions:
* The arbitrary-precision index type `Id` is modelled as `Nat`; `Id::getSimple`
  (a narrowing accessor living outside the given sources) is modelled as the
  identity, matching the spec's treatment of chunk ordinals as unbounded.
* The source's `std::size_t log2(std::size_t)` helper truncates `std::log2`;
  it is modelled as the exact floor base-2 logarithm `Nat.log2`.  The deviation
  of the floating-point version at large magnitudes is treated separately
  (see `c3_exact_inversion_at_failing_input`).
* Unsigned subtraction on `Id` is modelled as truncated `Nat` subtraction.
-/

namespace Entwine

/-- The anonymous-namespace helper wrapping `std::log2` into a `std::size_t`
result, modelled as the exact integer (floor) base-2 logarithm. -/
def log2 (val : Nat) : Nat := Nat.log2 val

/-- ChunkInfo::binaryPow: `Id(1) << (exp * baseLog2)`. -/
def binaryPow (baseLog2 exp : Nat) : Nat := 1 <<< (exp * baseLog2)

/-- ChunkInfo::calcDepth: `log2(index * (factor - 1) + 1) / log2(factor)`. -/
def calcDepth (factor index : Nat) : Nat :=
  log2 (index * (factor - 1) + 1) / log2 factor

/-- ChunkInfo::calcLevelIndex: `(binaryPow(dimensions, depth) - 1) / ((1 << dimensions) - 1)`. -/
def calcLevelIndex (dimensions depth : Nat) : Nat :=
  (binaryPow dimensions depth - 1) / ((1 <<< dimensions) - 1)

/-- ChunkInfo::pointsAtDepth: `binaryPow(dimensions, depth)`. -/
def pointsAtDepth (dimensions depth : Nat) : Nat := binaryPow dimensions depth

/-- ChunkInfo::logN: `log2(val) / log2(n)`. -/
def logN (val n : Nat) : Nat := log2 val / log2 n

/-- ChunkInfo::isPerfectLogN: `(1ULL << logN(val, n) * log2(n)) == val`. -/
def isPerfectLogN (val n : Nat) : Bool := (1 <<< (logN val n * log2 n)) == val

/-- The fields of entwine::Structure read by the modelled operations.  The
member initializer list of `Structure::Structure` populates them (see
`Structure.raw`).  `maxChunksPerDepth` is modelled from the spec: its default
member initializer lives in the header, which is not among the given sources;
it is taken as 0, and is only assigned in the `numPointsHint` branch of the
constructor body. -/
structure Structure where
  nullDepthEnd : Nat
  baseDepthEnd : Nat
  coldDepthEnd : Nat
  sparseDepthBegin : Nat
  startDepth : Nat
  nullIndexEnd : Nat
  baseIndexEnd : Nat
  coldIndexEnd : Nat
  sparseIndexBegin : Nat
  tubular : Bool
  dynamicChunks : Bool
  prefixIds : Bool
  dimensions : Nat
  factor : Nat
  numPointsHint : Nat
  pointsPerChunk : Nat
  nominalChunkDepth : Nat
  nominalChunkIndex : Nat
  maxChunksPerDepth : Nat
  deriving DecidableEq, Repr

/-- Accessor: `m_coldDepthBegin` is initialized to `m_baseDepthEnd`. -/
def Structure.coldDepthBegin (s : Structure) : Nat := s.baseDepthEnd

/-- Accessor: `m_coldIndexBegin` is initialized to `m_baseIndexEnd`. -/
def Structure.coldIndexBegin (s : Structure) : Nat := s.baseIndexEnd

/-- Accessor: `basePointsPerChunk()` returns `m_pointsPerChunk`. -/
def Structure.basePointsPerChunk (s : Structure) : Nat := s.pointsPerChunk

/-- Modelled from the spec: `hasCold()` is declared in the header, which is not
among the given sources.  Per the spec a cold region exists exactly when a
nonzero coldDepth was requested, and `m_coldDepthEnd` is nonzero exactly in
that case. -/
def Structure.hasCold (s : Structure) : Bool := s.coldDepthEnd != 0

/-- Modelled from the spec: `hasSparse()` is declared in the header, which is
not among the given sources.  Per the spec the sparse region is identified by
its begin depth; it is present when `m_sparseDepthBegin` is nonzero. -/
def Structure.hasSparse (s : Structure) : Bool := s.sparseDepthBegin != 0

/-- The member initializer list of `Structure::Structure` (structure.cpp,
lines 142-189). -/
def Structure.raw (nullDepth baseDepth coldDepth pointsPerChunk dimensions
    numPointsHint : Nat) (tubular dynamicChunks prefixIds : Bool)
    (sparseDepth startDepth : Nat) : Structure :=
  let nullDepthEnd := nullDepth
  let baseDepthBegin := nullDepthEnd
  let baseDepthEnd := max baseDepthBegin baseDepth
  let coldDepthBegin := baseDepthEnd
  let coldDepthEnd := if coldDepth ≠ 0 then max coldDepthBegin coldDepth else 0
  let sparseDepthBegin := max sparseDepth coldDepthBegin
  { nullDepthEnd := nullDepthEnd
    baseDepthEnd := baseDepthEnd
    coldDepthEnd := coldDepthEnd
    sparseDepthBegin := sparseDepthBegin
    startDepth := startDepth
    nullIndexEnd := calcLevelIndex dimensions nullDepthEnd
    baseIndexEnd := calcLevelIndex dimensions baseDepthEnd
    coldIndexEnd := if coldDepthEnd ≠ 0 then calcLevelIndex dimensions coldDepthEnd else 0
    sparseIndexBegin := calcLevelIndex dimensions sparseDepthBegin
    tubular := tubular
    dynamicChunks := dynamicChunks
    prefixIds := prefixIds
    dimensions := dimensions
    factor := 1 <<< dimensions
    numPointsHint := numPointsHint
    pointsPerChunk := pointsPerChunk
    nominalChunkDepth := logN pointsPerChunk (1 <<< dimensions)
    nominalChunkIndex := calcLevelIndex dimensions (logN pointsPerChunk (1 <<< dimensions))
    maxChunksPerDepth := 0 }

/-- Modelled from the spec: with a `numPointsHint` and no explicit sparse
depth, the sparse begin depth is `ceil(log_factor(hint))`, clamped to at least
`coldDepthBegin`, then inflated by the 1.15 bump ratio (spec section 4.2).
The source computes this with floating-point `std::log2`/`std::ceil`; here it
is the exact ceiling logarithm and `ceil(1.15 * x) = (23 * x + 19) / 20`. -/
def hintSparseDepth (factor coldDepthBegin hint : Nat) : Nat :=
  (23 * max (Nat.clog factor hint) coldDepthBegin + 19) / 20

/-- The `if (m_numPointsHint)` block of the constructor body (structure.cpp,
lines 209-236).  The multiply loop from `m_nominalChunkDepth` up to
`m_sparseDepthBegin` yields `factor ^ (sparseDepthBegin - nominalChunkDepth)`. -/
def Structure.finalize (s : Structure) (sparseDepth : Nat) : Structure :=
  if s.numPointsHint ≠ 0 then
    let sb := if sparseDepth = 0 then
        hintSparseDepth s.factor s.coldDepthBegin s.numPointsHint
      else s.sparseDepthBegin
    { s with
      sparseDepthBegin := sb
      sparseIndexBegin := calcLevelIndex s.dimensions sb
      maxChunksPerDepth :=
        if sb ≠ 0 then s.factor ^ (sb - s.nominalChunkDepth)
        else s.maxChunksPerDepth }
  else s

/-- Structure::Structure: initializer list, then the three validation throws
(structure.cpp, lines 191-207), then the `numPointsHint` adjustment. -/
def Structure.make (nullDepth baseDepth coldDepth pointsPerChunk dimensions
    numPointsHint : Nat) (tubular dynamicChunks prefixIds : Bool)
    (sparseDepth startDepth : Nat) : Except String Structure :=
  let s := Structure.raw nullDepth baseDepth coldDepth pointsPerChunk dimensions
    numPointsHint tubular dynamicChunks prefixIds sparseDepth startDepth
  if s.baseDepthEnd < 4 then
    Except.error "Base depth too small"
  else if s.pointsPerChunk = 0 ∧ s.hasCold = true then
    Except.error "Points per chunk not specified, but a cold depth was given."
  else if s.hasCold = true ∧ isPerfectLogN s.pointsPerChunk s.factor = false then
    Except.error "Invalid chunk specification - must be of the form 4^n for quadtree, or 8^n for octree"
  else
    Except.ok (s.finalize sparseDepth)

/-- The per-query result of `ChunkInfo::ChunkInfo`. -/
structure ChunkInfo where
  index : Nat
  chunkId : Nat
  depth : Nat
  chunkOffset : Nat
  pointsPerChunk : Nat
  chunkNum : Nat
  deriving DecidableEq, Repr

/-- ChunkInfo::ChunkInfo (structure.cpp, lines 30-84). -/
def chunkInfo (s : Structure) (index : Nat) : ChunkInfo :=
  let depth := calcDepth s.factor index
  let levelIndex := calcLevelIndex s.dimensions depth
  let basePointsPerChunk := s.basePointsPerChunk
  let sparseIndexBegin := s.sparseIndexBegin
  let coldIndexBegin := s.coldIndexBegin
  if s.dynamicChunks = false ∨ levelIndex ≤ sparseIndexBegin then
    let pointsPerChunk := basePointsPerChunk
    let chunkNum := (index - coldIndexBegin) / pointsPerChunk
    let chunkOffset := (index - coldIndexBegin) % pointsPerChunk
    { index := index
      chunkId := coldIndexBegin + chunkNum * pointsPerChunk
      depth := depth
      chunkOffset := chunkOffset
      pointsPerChunk := pointsPerChunk
      chunkNum := chunkNum }
  else
    let sparseFirstSpan := pointsAtDepth s.dimensions s.sparseDepthBegin
    let chunksPerSparseDepth := sparseFirstSpan / basePointsPerChunk
    let sparseDepthCount := depth - s.sparseDepthBegin
    let pointsPerChunk := basePointsPerChunk * binaryPow s.dimensions sparseDepthCount
    let coldIndexSpan := sparseIndexBegin - coldIndexBegin
    let numColdChunks := coldIndexSpan / basePointsPerChunk
    let prevLevelsChunkCount := numColdChunks + chunksPerSparseDepth * sparseDepthCount
    let levelOffset := index - levelIndex
    { index := index
      chunkId := levelIndex + (levelOffset / pointsPerChunk) * pointsPerChunk
      depth := depth
      chunkOffset := levelOffset % pointsPerChunk
      pointsPerChunk := pointsPerChunk
      chunkNum := prevLevelsChunkCount + levelOffset / pointsPerChunk }

/-- Structure::numChunksAtDepth (structure.cpp, lines 317-338). -/
def Structure.numChunksAtDepth (s : Structure) (depth : Nat) : Nat :=
  if s.hasSparse = false ∨ s.dynamicChunks = false ∨ depth ≤ s.sparseDepthBegin then
    (calcLevelIndex s.dimensions (depth + 1) - calcLevelIndex s.dimensions depth)
      / s.pointsPerChunk
  else
    pointsAtDepth s.dimensions s.sparseDepthBegin / s.pointsPerChunk

/-- Structure::getInfoFromNum (structure.cpp, lines 262-315). -/
def Structure.getInfoFromNum (s : Structure) (chunkNum : Nat) : ChunkInfo :=
  let chunkId : Nat :=
    if s.hasCold = true then
      if s.hasSparse = true ∧ s.dynamicChunks = true then
        let endFixed := calcLevelIndex s.dimensions (s.sparseDepthBegin + 1)
        let fixedSpan := endFixed - s.coldIndexBegin
        let fixedNum := fixedSpan / s.pointsPerChunk
        if chunkNum < fixedNum then
          s.coldIndexBegin + chunkNum * s.pointsPerChunk
        else
          let leftover := chunkNum - fixedNum
          let chunksPerSparseDepth := s.numChunksAtDepth s.sparseDepthBegin
          let depth := s.sparseDepthBegin + 1 + leftover / chunksPerSparseDepth
          let chunkNumInDepth := leftover % chunksPerSparseDepth
          let depthIndexBegin := calcLevelIndex s.dimensions depth
          let depthChunkSize := pointsAtDepth s.dimensions depth / chunksPerSparseDepth
          depthIndexBegin + chunkNumInDepth * depthChunkSize
      else
        s.coldIndexBegin + chunkNum * s.pointsPerChunk
    else 0
  chunkInfo s chunkId

/-- The octree scenario from the spec: dimensions 3, baseDepth 6, coldDepth 10,
pointsPerChunk 64, no hint, fixed (non-dynamic) chunks. -/
def scenarioOctree : Structure :=
  (Structure.raw 0 6 10 64 3 0 false false false 0 0).finalize 0

/-- The scenario Structure with an explicit sparse depth 8, dynamic chunks and
no numPointsHint. -/
def scenarioSparseNoHint : Structure :=
  (Structure.raw 0 6 10 64 3 0 false true false 8 0).finalize 8

/-! Arithmetic facts about the pure helpers. -/

lemma log2_two_pow (D : Nat) : log2 (2 ^ D) = D := by
  unfold log2
  rw [Nat.log2_eq_log_two]
  exact Nat.log_pow one_lt_two D

lemma log2_one_shiftLeft (n : Nat) : log2 (1 <<< n) = n := by
  rw [Nat.one_shiftLeft]
  exact log2_two_pow n

lemma binaryPow_eq (D d : Nat) : binaryPow D d = 2 ^ (d * D) := by
  unfold binaryPow
  exact Nat.one_shiftLeft (d * D)

lemma calcLevelIndex_mul (D d : Nat) :
    calcLevelIndex D d * (2 ^ D - 1) = 2 ^ (d * D) - 1 := by
  have h := nat_sub_dvd_pow_sub_pow (2 ^ D) 1 d
  rw [one_pow, ← pow_mul, Nat.mul_comm D d] at h
  unfold calcLevelIndex
  rw [binaryPow_eq, Nat.one_shiftLeft]
  exact Nat.div_mul_cancel h

lemma two_pow_pos (n : Nat) : 1 ≤ 2 ^ n := Nat.one_le_two_pow

lemma calcLevelIndex_succ (D d : Nat) (hD : 1 ≤ D) :
    calcLevelIndex D (d + 1) = calcLevelIndex D d + 2 ^ (d * D) := by
  have h1 := calcLevelIndex_mul D d
  have h2 := calcLevelIndex_mul D (d + 1)
  have hm : 2 ≤ 2 ^ D := by
    calc 2 = 2 ^ 1 := (pow_one 2).symm
    _ ≤ 2 ^ D := Nat.pow_le_pow_right (by norm_num) hD
  have hx : 1 ≤ 2 ^ (d * D) := two_pow_pos _
  have hxy : 2 ^ ((d + 1) * D) = 2 ^ (d * D) * 2 ^ D := by
    rw [← pow_add]
    ring_nf
  have key2 : ∀ x y : Nat, 1 ≤ x → 1 ≤ y → x * y - 1 = x - 1 + x * (y - 1) := by
    intro x y hx hy
    have hxy1 : 1 ≤ x * y := Nat.mul_le_mul hx hy
    zify [hx, hy, hxy1]
    ring
  have hkey : calcLevelIndex D (d + 1) * (2 ^ D - 1)
      = (calcLevelIndex D d + 2 ^ (d * D)) * (2 ^ D - 1) := by
    rw [h2, hxy, Nat.add_mul, h1]
    exact key2 (2 ^ (d * D)) (2 ^ D) hx (by omega)
  exact Nat.eq_of_mul_eq_mul_right (by omega) hkey

lemma calcLevelIndex_le (D : Nat) {d e : Nat} (h : d ≤ e) :
    calcLevelIndex D d ≤ calcLevelIndex D e := by
  unfold calcLevelIndex
  apply Nat.div_le_div_right
  have hle : (1 : Nat) <<< (d * D) ≤ 1 <<< (e * D) := by
    rw [Nat.one_shiftLeft, Nat.one_shiftLeft]
    exact Nat.pow_le_pow_right (by norm_num) (Nat.mul_le_mul_right D h)
  unfold binaryPow
  omega

lemma calcLevelIndex_lt (D : Nat) (hD : 1 ≤ D) {d e : Nat} (h : d < e) :
    calcLevelIndex D d < calcLevelIndex D e := by
  have h1 := calcLevelIndex_succ D d hD
  have h2 := calcLevelIndex_le D (show d + 1 ≤ e from h)
  have hx : 1 ≤ 2 ^ (d * D) := two_pow_pos _
  omega

lemma levelIndex_le_inv (D : Nat) (hD : 1 ≤ D) {d e : Nat}
    (h : calcLevelIndex D d ≤ calcLevelIndex D e) : d ≤ e := by
  by_contra hc
  push_neg at hc
  exact absurd h (Nat.not_le.mpr (calcLevelIndex_lt D hD hc))

lemma calcDepth_bounds (D : Nat) (hD : 1 ≤ D) (i : Nat) :
    calcLevelIndex D (calcDepth (2 ^ D) i) ≤ i ∧
      i < calcLevelIndex D (calcDepth (2 ^ D) i + 1) := by
  have hv0 : i * (2 ^ D - 1) + 1 ≠ 0 := Nat.succ_ne_zero _
  have hd : calcDepth (2 ^ D) i = Nat.log2 (i * (2 ^ D - 1) + 1) / D := by
    unfold calcDepth
    rw [log2_two_pow]
    rfl
  set v := i * (2 ^ D - 1) + 1 with hvdef
  set k := Nat.log2 v with hkdef
  have hk1 : 2 ^ k ≤ v := by
    rw [hkdef, Nat.log2_eq_log_two]
    exact Nat.pow_log_le_self 2 hv0
  have hk2 : v < 2 ^ (k + 1) := by
    rw [hkdef, Nat.log2_eq_log_two]
    exact Nat.lt_pow_succ_log_self one_lt_two v
  set d := k / D with hddef
  have hdk1 : d * D ≤ k := Nat.div_mul_le_self k D
  have hdk2 : k < (d + 1) * D := by
    have hlt : k / D < d + 1 := Nat.lt_succ_self d
    exact (Nat.div_lt_iff_lt_mul (by omega)).mp hlt
  have hm : 2 ≤ 2 ^ D := by
    calc 2 = 2 ^ 1 := (pow_one 2).symm
    _ ≤ 2 ^ D := Nat.pow_le_pow_right (by norm_num) hD
  have hlow : 2 ^ (d * D) ≤ v :=
    le_trans (Nat.pow_le_pow_right (by norm_num) hdk1) hk1
  have hhigh : v < 2 ^ ((d + 1) * D) :=
    lt_of_lt_of_le hk2 (Nat.pow_le_pow_right (by norm_num) hdk2)
  have hL1 := calcLevelIndex_mul D d
  have hL2 := calcLevelIndex_mul D (d + 1)
  rw [hd]
  constructor
  · have hmul : calcLevelIndex D d * (2 ^ D - 1) ≤ i * (2 ^ D - 1) := by omega
    exact Nat.le_of_mul_le_mul_right hmul (by omega)
  · have hmul : i * (2 ^ D - 1) < calcLevelIndex D (d + 1) * (2 ^ D - 1) := by
      have hp : 2 ≤ 2 ^ ((d + 1) * D) := by
        calc 2 ≤ 2 ^ D := hm
        _ ≤ 2 ^ ((d + 1) * D) := Nat.pow_le_pow_right (by norm_num) (by nlinarith)
      omega
    by_contra hc
    push_neg at hc
    exact absurd (Nat.mul_le_mul_right (2 ^ D - 1) hc) (Nat.not_le.mpr hmul)

lemma calcDepth_eq_of_bounds (D : Nat) (hD : 1 ≤ D) {d i : Nat}
    (h1 : calcLevelIndex D d ≤ i) (h2 : i < calcLevelIndex D (d + 1)) :
    calcDepth (2 ^ D) i = d := by
  obtain ⟨hb1, hb2⟩ := calcDepth_bounds D hD i
  set e := calcDepth (2 ^ D) i with hedef
  rcases Nat.lt_trichotomy e d with hlt | heq | hgt
  · have : calcLevelIndex D (e + 1) ≤ calcLevelIndex D d := calcLevelIndex_le D hlt
    omega
  · exact heq
  · have : calcLevelIndex D (d + 1) ≤ calcLevelIndex D e := calcLevelIndex_le D hgt
    omega

lemma calcDepth_mono (D : Nat) (hD : 1 ≤ D) {i j : Nat} (h : i ≤ j) :
    calcDepth (2 ^ D) i ≤ calcDepth (2 ^ D) j := by
  obtain ⟨hi1, hi2⟩ := calcDepth_bounds D hD i
  obtain ⟨hj1, hj2⟩ := calcDepth_bounds D hD j
  by_contra hc
  push_neg at hc
  have : calcLevelIndex D (calcDepth (2 ^ D) j + 1) ≤ calcLevelIndex D (calcDepth (2 ^ D) i) :=
    calcLevelIndex_le D hc
  omega

/-! Facts guaranteed for every Structure that the constructor accepts. -/

/-- The invariants of a validly constructed Structure that the addressing
proofs rely on. -/
structure WF (s : Structure) : Prop where
  factor_eq : s.factor = 2 ^ s.dimensions
  base_le : 4 ≤ s.baseDepthEnd
  cold_idx : s.coldIndexBegin = calcLevelIndex s.dimensions s.baseDepthEnd
  sparse_idx : s.sparseIndexBegin = calcLevelIndex s.dimensions s.sparseDepthBegin
  cold_le_sparse : s.baseDepthEnd ≤ s.sparseDepthBegin
  ppc_pos : s.hasCold = true → s.pointsPerChunk ≠ 0
  ppc_pow : s.hasCold = true →
    s.pointsPerChunk = 2 ^ (s.nominalChunkDepth * s.dimensions)

lemma hintSparseDepth_ge (f cb h : Nat) : cb ≤ hintSparseDepth f cb h := by
  unfold hintSparseDepth
  have h1 : cb ≤ max (Nat.clog f h) cb := le_max_right _ _
  have h2 : max (Nat.clog f h) cb ≤ (23 * max (Nat.clog f h) cb + 19) / 20 := by
    rw [Nat.le_div_iff_mul_le (by norm_num)]
    omega
  omega

lemma finalize_eta (s : Structure) (sd : Nat) :
    (s.finalize sd).nullDepthEnd = s.nullDepthEnd ∧
    (s.finalize sd).baseDepthEnd = s.baseDepthEnd ∧
    (s.finalize sd).coldDepthEnd = s.coldDepthEnd ∧
    (s.finalize sd).baseIndexEnd = s.baseIndexEnd ∧
    (s.finalize sd).dynamicChunks = s.dynamicChunks ∧
    (s.finalize sd).dimensions = s.dimensions ∧
    (s.finalize sd).factor = s.factor ∧
    (s.finalize sd).numPointsHint = s.numPointsHint ∧
    (s.finalize sd).pointsPerChunk = s.pointsPerChunk ∧
    (s.finalize sd).nominalChunkDepth = s.nominalChunkDepth := by
  unfold Structure.finalize
  split_ifs <;> simp

lemma finalize_sparse (s : Structure) (sd : Nat)
    (hidx : s.sparseIndexBegin = calcLevelIndex s.dimensions s.sparseDepthBegin)
    (hge : s.baseDepthEnd ≤ s.sparseDepthBegin) :
    (s.finalize sd).sparseIndexBegin
        = calcLevelIndex s.dimensions ((s.finalize sd).sparseDepthBegin) ∧
      s.baseDepthEnd ≤ (s.finalize sd).sparseDepthBegin := by
  unfold Structure.finalize
  split_ifs with h1 h2
  · exact ⟨rfl, hintSparseDepth_ge _ _ _⟩
  · exact ⟨rfl, hge⟩
  · exact ⟨hidx, hge⟩

lemma make_ok_inv (nullDepth baseDepth coldDepth ppc dims hint : Nat)
    (tub dyn pre : Bool) (sd st : Nat) (s : Structure)
    (h : Structure.make nullDepth baseDepth coldDepth ppc dims hint tub dyn pre sd st
      = Except.ok s) :
    s = (Structure.raw nullDepth baseDepth coldDepth ppc dims hint tub dyn pre sd st).finalize sd ∧
    ¬ (Structure.raw nullDepth baseDepth coldDepth ppc dims hint tub dyn pre sd st).baseDepthEnd < 4 ∧
    ¬ (ppc = 0 ∧ (Structure.raw nullDepth baseDepth coldDepth ppc dims hint tub dyn pre sd st).hasCold = true) ∧
    ¬ ((Structure.raw nullDepth baseDepth coldDepth ppc dims hint tub dyn pre sd st).hasCold = true ∧
        isPerfectLogN ppc (1 <<< dims) = false) := by
  simp only [Structure.make] at h
  have hppc : (Structure.raw nullDepth baseDepth coldDepth ppc dims hint tub dyn pre sd st).pointsPerChunk = ppc := rfl
  have hfac : (Structure.raw nullDepth baseDepth coldDepth ppc dims hint tub dyn pre sd st).factor = 1 <<< dims := rfl
  rw [hppc, hfac] at h
  split_ifs at h with h1 h2 h3
  exact ⟨(Except.ok.inj h).symm, h1, h2, h3⟩

lemma isPerfectLogN_spec (p D : Nat)
    (h : isPerfectLogN p (1 <<< D) = true) :
    p = 2 ^ (logN p (1 <<< D) * D) := by
  unfold isPerfectLogN at h
  have heq : 1 <<< (logN p (1 <<< D) * log2 (1 <<< D)) = p := eq_of_beq h
  rw [log2_one_shiftLeft, Nat.one_shiftLeft] at heq
  exact heq.symm

lemma wf_of_make (nullDepth baseDepth coldDepth ppc dims hint : Nat)
    (tub dyn pre : Bool) (sd st : Nat) (s : Structure)
    (h : Structure.make nullDepth baseDepth coldDepth ppc dims hint tub dyn pre sd st
      = Except.ok s) : WF s := by
  obtain ⟨hs, h1, h2, h3⟩ := make_ok_inv _ _ _ _ _ _ _ _ _ _ _ _ h
  set r := Structure.raw nullDepth baseDepth coldDepth ppc dims hint tub dyn pre sd st with hr
  obtain ⟨e1, e2, e3, e4, e5, e6, e7, e8, e9, e10⟩ := finalize_eta r sd
  have hrdim : r.dimensions = dims := rfl
  have hrfac : r.factor = 1 <<< dims := rfl
  have hrppc : r.pointsPerChunk = ppc := rfl
  have hrsparse : r.sparseIndexBegin = calcLevelIndex r.dimensions r.sparseDepthBegin := rfl
  have hrge : r.baseDepthEnd ≤ r.sparseDepthBegin := le_max_right _ _
  have hrcold : r.baseIndexEnd = calcLevelIndex r.dimensions r.baseDepthEnd := rfl
  obtain ⟨f1, f2⟩ := finalize_sparse r sd hrsparse hrge
  have hcoldfin : (r.finalize sd).hasCold = r.hasCold := by
    unfold Structure.hasCold
    rw [e3]
  constructor
  · rw [hs]
    unfold Structure.coldIndexBegin at *
    rw [e7, e6, hrfac, hrdim, Nat.one_shiftLeft]
  · rw [hs, e2]
    omega
  · rw [hs]
    unfold Structure.coldIndexBegin
    rw [e4, e2, e6, hrcold]
  · rw [hs, f1, e6]
  · rw [hs, e2]
    exact f2
  · intro hc
    rw [hs, e9]
    rw [hs, hcoldfin] at hc
    rw [hrppc]
    intro h0
    exact h2 ⟨h0, hc⟩
  · intro hc
    rw [hs, e9, e10, e6, hrppc, hrdim]
    rw [hs, hcoldfin] at hc
    by_cases hperf : isPerfectLogN ppc (1 <<< dims) = true
    · have hval := isPerfectLogN_spec ppc dims hperf
      have hnom : r.nominalChunkDepth = logN ppc (1 <<< dims) := rfl
      rw [hnom]
      exact hval
    · rw [Bool.not_eq_true] at hperf
      exact absurd ⟨hc, hperf⟩ h3

/-! Branch characterizations of ChunkInfo, and concrete-value evaluation
helpers that do not force the well-founded recursion of Nat.log2. -/

lemma log2_eval (v k : Nat) (h1 : 2 ^ k ≤ v) (h2 : v < 2 ^ (k + 1)) :
    Nat.log2 v = k := by
  have hv : v ≠ 0 := by
    have := two_pow_pos k
    omega
  have ha := (Nat.le_log2 hv).mpr h1
  have hb := (Nat.log2_lt hv).mpr h2
  omega

lemma calcDepth_eval (D : Nat) {f i d : Nat} (hf : f = 2 ^ D) (hD : 1 ≤ D)
    (h1 : calcLevelIndex D d ≤ i) (h2 : i < calcLevelIndex D (d + 1)) :
    calcDepth f i = d := by
  rw [hf]
  exact calcDepth_eq_of_bounds D hD h1 h2

lemma chunkInfo_fixed (s : Structure) (i : Nat)
    (h : s.dynamicChunks = false ∨
      calcLevelIndex s.dimensions (calcDepth s.factor i) ≤ s.sparseIndexBegin) :
    chunkInfo s i =
      { index := i,
        chunkId := s.coldIndexBegin + (i - s.coldIndexBegin) / s.pointsPerChunk * s.pointsPerChunk,
        depth := calcDepth s.factor i,
        chunkOffset := (i - s.coldIndexBegin) % s.pointsPerChunk,
        pointsPerChunk := s.pointsPerChunk,
        chunkNum := (i - s.coldIndexBegin) / s.pointsPerChunk } := by
  simp only [chunkInfo, if_pos h]
  rfl

lemma chunkInfo_sparse (s : Structure) (i : Nat)
    (h : ¬ (s.dynamicChunks = false ∨
      calcLevelIndex s.dimensions (calcDepth s.factor i) ≤ s.sparseIndexBegin)) :
    chunkInfo s i =
      { index := i,
        chunkId := calcLevelIndex s.dimensions (calcDepth s.factor i) +
          (i - calcLevelIndex s.dimensions (calcDepth s.factor i)) /
            (s.pointsPerChunk * binaryPow s.dimensions (calcDepth s.factor i - s.sparseDepthBegin)) *
            (s.pointsPerChunk * binaryPow s.dimensions (calcDepth s.factor i - s.sparseDepthBegin)),
        depth := calcDepth s.factor i,
        chunkOffset := (i - calcLevelIndex s.dimensions (calcDepth s.factor i)) %
          (s.pointsPerChunk * binaryPow s.dimensions (calcDepth s.factor i - s.sparseDepthBegin)),
        pointsPerChunk := s.pointsPerChunk *
          binaryPow s.dimensions (calcDepth s.factor i - s.sparseDepthBegin),
        chunkNum := (s.sparseIndexBegin - s.coldIndexBegin) / s.pointsPerChunk +
          pointsAtDepth s.dimensions s.sparseDepthBegin / s.pointsPerChunk *
            (calcDepth s.factor i - s.sparseDepthBegin) +
          (i - calcLevelIndex s.dimensions (calcDepth s.factor i)) /
            (s.pointsPerChunk * binaryPow s.dimensions (calcDepth s.factor i - s.sparseDepthBegin)) } := by
  simp only [chunkInfo, if_neg h]
  rfl

/-! The claims. -/

/-- C4: for dimensions 2 or 3 with factor 2^dimensions, the index span of a
depth, calcLevelIndex(dims, d+1) - calcLevelIndex(dims, d), equals factor^d,
the exact node count at depth d, which is pointsAtDepth(dims, d). -/
theorem c4_levelSpan_eq_pow (dims d : Nat) (h : dims = 2 ∨ dims = 3) :
    calcLevelIndex dims (d + 1) - calcLevelIndex dims d = (2 ^ dims) ^ d ∧
      calcLevelIndex dims (d + 1) - calcLevelIndex dims d = pointsAtDepth dims d := by
  have hD : 1 ≤ dims := by rcases h with h | h <;> omega
  have hsucc := calcLevelIndex_succ dims d hD
  have hpow : (2 ^ dims) ^ d = 2 ^ (d * dims) := by
    rw [← pow_mul, Nat.mul_comm]
  have hpts : pointsAtDepth dims d = 2 ^ (d * dims) := binaryPow_eq dims d
  omega

/-- Witness for C4 at dimensions 3, depth 6. -/
theorem c4_levelSpan_eq_pow_witness :
    calcLevelIndex 3 (6 + 1) - calcLevelIndex 3 6 = (2 ^ 3) ^ 6 ∧
      calcLevelIndex 3 (6 + 1) - calcLevelIndex 3 6 = pointsAtDepth 3 6 :=
  c4_levelSpan_eq_pow 3 6 (Or.inr rfl)

/-- C3 (exact-arithmetic side): at dimensions 2 (factor 4) and global index
24019198012642644, the unique inverting depth is 27: the index lies in
the half-open level range of depth 27, and the exact integer-log2 embedding of
calcDepth returns 27.  The C++ code instead converts
index*3+1 = 2^56 - 3 to an IEEE double, which rounds to 2^56 exactly, so its
std::log2 yields 56 and calcDepth returns 56/2 = 28, the wrong depth. -/
theorem c3_exact_inversion_at_failing_input :
    calcLevelIndex 2 27 ≤ 24019198012642644 ∧
      24019198012642644 < calcLevelIndex 2 (27 + 1) ∧
      calcDepth 4 24019198012642644 = 27 := by
  refine ⟨by decide, by decide, ?_⟩
  exact calcDepth_eval 2 (by norm_num) (by norm_num) (by decide) (by decide)

/-- C5: numChunksAtDepth returns the depth's index span divided by
pointsPerChunk whenever the structure has no sparse region, is non-dynamic, or
the depth is at or below sparseDepthBegin, and returns the constant
pointsAtDepth(dimensions, sparseDepthBegin) / basePointsPerChunk for every
depth beyond sparseDepthBegin when sparse dynamic chunking is active; in the
octree scenario (baseDepth 6, coldDepth 10, pointsPerChunk 64),
numChunksAtDepth(6) = (calcLevelIndex(3,7) - calcLevelIndex(3,6)) / 64. -/
theorem c5_numChunksAtDepth :
    (∀ (s : Structure) (depth : Nat),
      ((s.hasSparse = false ∨ s.dynamicChunks = false ∨ depth ≤ s.sparseDepthBegin) →
        s.numChunksAtDepth depth =
          (calcLevelIndex s.dimensions (depth + 1) - calcLevelIndex s.dimensions depth)
            / s.basePointsPerChunk) ∧
      ((s.hasSparse = true ∧ s.dynamicChunks = true ∧ s.sparseDepthBegin < depth) →
        s.numChunksAtDepth depth =
          pointsAtDepth s.dimensions s.sparseDepthBegin / s.basePointsPerChunk)) ∧
    scenarioOctree.numChunksAtDepth 6 = (calcLevelIndex 3 7 - calcLevelIndex 3 6) / 64 := by
  refine ⟨fun s depth => ⟨fun h => ?_, fun h => ?_⟩, ?_⟩
  · simp only [Structure.numChunksAtDepth, if_pos h]
    rfl
  · rw [Structure.numChunksAtDepth, if_neg ?_]
    · rfl
    · rcases h with ⟨h1, h2, h3⟩
      intro hor
      rcases hor with hc | hc | hc
      · rw [h1] at hc
        exact Bool.noConfusion hc
      · rw [h2] at hc
        exact Bool.noConfusion hc
      · omega
  · with_unfolding_all rfl

/-- Witness for C5 on the dynamic sparse scenario at depth 9 (beyond
sparseDepthBegin 8), using the second branch. -/
theorem c5_numChunksAtDepth_witness :
    scenarioSparseNoHint.numChunksAtDepth 9 =
      pointsAtDepth scenarioSparseNoHint.dimensions scenarioSparseNoHint.sparseDepthBegin /
        scenarioSparseNoHint.basePointsPerChunk :=
  (c5_numChunksAtDepth.1 scenarioSparseNoHint 9).2
    (by refine ⟨?_, rfl, ?_⟩ <;> with_unfolding_all decide)

/-- C7: Structure construction fails if and only if baseDepthEnd < 4, or
pointsPerChunk is zero while a cold region exists, or pointsPerChunk is not a
perfect power of the branching factor while a cold region exists; moreover
with default remaining parameters baseDepth 3 fails and baseDepth 4 succeeds.
(The query operations of the model are total functions, so no error can arise
after successful construction.) -/
theorem c7_constructionError_iff :
    (∀ (nullDepth baseDepth coldDepth ppc dims hint : Nat) (tub dyn pre : Bool)
        (sd st : Nat),
      (∃ e, Structure.make nullDepth baseDepth coldDepth ppc dims hint tub dyn pre sd st
          = Except.error e) ↔
        ((Structure.raw nullDepth baseDepth coldDepth ppc dims hint tub dyn pre sd st).baseDepthEnd < 4 ∨
          ((Structure.raw nullDepth baseDepth coldDepth ppc dims hint tub dyn pre sd st).pointsPerChunk = 0 ∧
            (Structure.raw nullDepth baseDepth coldDepth ppc dims hint tub dyn pre sd st).hasCold = true) ∨
          ((Structure.raw nullDepth baseDepth coldDepth ppc dims hint tub dyn pre sd st).hasCold = true ∧
            isPerfectLogN
              (Structure.raw nullDepth baseDepth coldDepth ppc dims hint tub dyn pre sd st).pointsPerChunk
              (Structure.raw nullDepth baseDepth coldDepth ppc dims hint tub dyn pre sd st).factor = false))) ∧
    (∃ e, Structure.make 0 3 0 0 2 0 false false false 0 0 = Except.error e) ∧
    (∃ s, Structure.make 0 4 0 0 2 0 false false false 0 0 = Except.ok s) := by
  refine ⟨?_, ⟨"Base depth too small", by with_unfolding_all rfl⟩,
    ⟨(Structure.raw 0 4 0 0 2 0 false false false 0 0).finalize 0, by with_unfolding_all rfl⟩⟩
  intro nullDepth baseDepth coldDepth ppc dims hint tub dyn pre sd st
  simp only [Structure.make]
  split_ifs with h1 h2 h3
  · simp [h1]
  · simp [h1, h2]
  · simp [h1, h2, h3]
  · simp [h1, h2, h3]

/-- C10: the base-depth validation reads baseDepthEnd = max(nullDepth,
baseDepth), so whenever nullDepth is at least 4 the base-depth-too-small
error cannot be raised, whatever baseDepth is. -/
theorem c10_nullDepth_bypasses_base_check (nullDepth baseDepth coldDepth ppc dims hint : Nat)
    (tub dyn pre : Bool) (sd st : Nat) (h : 4 ≤ nullDepth) :
    (Structure.raw nullDepth baseDepth coldDepth ppc dims hint tub dyn pre sd st).baseDepthEnd
        = max nullDepth baseDepth ∧
      Structure.make nullDepth baseDepth coldDepth ppc dims hint tub dyn pre sd st
        ≠ Except.error "Base depth too small" := by
  refine ⟨rfl, fun hcontra => ?_⟩
  simp only [Structure.make] at hcontra
  split_ifs at hcontra with h1 h2 h3 <;>
    first
      | (have hbe : (Structure.raw nullDepth baseDepth coldDepth ppc dims hint tub dyn pre sd st).baseDepthEnd
            = max nullDepth baseDepth := rfl
         omega)
      | exact absurd (Except.error.inj hcontra) (by decide)

/-- Witness for C10 at nullDepth 4, baseDepth 0. -/
theorem c10_nullDepth_bypasses_base_check_witness :
    (Structure.raw 4 0 0 0 2 0 false false false 0 0).baseDepthEnd = max 4 0 ∧
      Structure.make 4 0 0 0 2 0 false false false 0 0
        ≠ Except.error "Base depth too small" :=
  c10_nullDepth_bypasses_base_check 4 0 0 0 2 0 false false false 0 0 (by norm_num)

/-- C8 counterexample: a Structure built with an explicit sparse depth 8,
dynamicChunks true and numPointsHint 0 ends construction with
maxChunksPerDepth 0, not factor^(sparseDepthBegin - nominalChunkDepth)
= 8^(8-2) = 262144: the precomputation is guarded by `if (m_numPointsHint)`. -/
theorem c8_counterexample :
    Structure.make 0 6 10 64 3 0 false true false 8 0 = Except.ok scenarioSparseNoHint ∧
      scenarioSparseNoHint.hasSparse = true ∧
      scenarioSparseNoHint.dynamicChunks = true ∧
      scenarioSparseNoHint.maxChunksPerDepth = 0 ∧
      scenarioSparseNoHint.factor ^
          (scenarioSparseNoHint.sparseDepthBegin - scenarioSparseNoHint.nominalChunkDepth)
        = 262144 ∧
      scenarioSparseNoHint.maxChunksPerDepth ≠
        scenarioSparseNoHint.factor ^
          (scenarioSparseNoHint.sparseDepthBegin - scenarioSparseNoHint.nominalChunkDepth) := by
  refine ⟨by with_unfolding_all rfl, rfl, rfl, rfl, by with_unfolding_all rfl, ?_⟩
  with_unfolding_all decide

/-- C8 amended: when a sparse region is requested explicitly, dynamicChunks is
true and a nonzero numPointsHint is supplied, construction ends with
maxChunksPerDepth = factor^(sparseDepthBegin - nominalChunkDepth); with
numPointsHint 0 the precomputation is skipped (see the counterexample). -/
theorem c8_maxChunksPerDepth_with_hint (nullDepth baseDepth coldDepth ppc dims hint : Nat)
    (tub pre : Bool) (sd st : Nat) (s : Structure)
    (hmk : Structure.make nullDepth baseDepth coldDepth ppc dims hint tub true pre sd st
      = Except.ok s)
    (hsd : sd ≠ 0) (hhint : hint ≠ 0) :
    s.maxChunksPerDepth = s.factor ^ (s.sparseDepthBegin - s.nominalChunkDepth) := by
  obtain ⟨hs, -, -, -⟩ := make_ok_inv _ _ _ _ _ _ _ _ _ _ _ _ hmk
  subst hs
  have hraw : (Structure.raw nullDepth baseDepth coldDepth ppc dims hint tub true pre sd st).numPointsHint
      = hint := rfl
  have hsb : (Structure.raw nullDepth baseDepth coldDepth ppc dims hint tub true pre sd st).sparseDepthBegin
      = max sd (max nullDepth baseDepth) := rfl
  have hc1 : (Structure.raw nullDepth baseDepth coldDepth ppc dims hint tub true pre sd st).numPointsHint ≠ 0 := by
    rw [hraw]
    exact hhint
  have hc2 : (Structure.raw nullDepth baseDepth coldDepth ppc dims hint tub true pre sd st).sparseDepthBegin ≠ 0 := by
    rw [hsb]
    omega
  simp only [Structure.finalize, if_pos hc1, if_neg hsd]
  rw [if_pos hc2]

/-- Witness for the amended C8: hint 1000, sparse depth 8, dynamic chunks. -/
theorem c8_maxChunksPerDepth_with_hint_witness :
    Structure.make 0 6 10 64 3 1000 false true false 8 0
        = Except.ok ((Structure.raw 0 6 10 64 3 1000 false true false 8 0).finalize 8) ∧
      ((Structure.raw 0 6 10 64 3 1000 false true false 8 0).finalize 8).maxChunksPerDepth
        = ((Structure.raw 0 6 10 64 3 1000 false true false 8 0).finalize 8).factor ^
            (((Structure.raw 0 6 10 64 3 1000 false true false 8 0).finalize 8).sparseDepthBegin -
              ((Structure.raw 0 6 10 64 3 1000 false true false 8 0).finalize 8).nominalChunkDepth) :=
  ⟨by with_unfolding_all rfl,
    c8_maxChunksPerDepth_with_hint 0 6 10 64 3 1000 false false 8 0 _
      (by with_unfolding_all rfl) (by norm_num) (by norm_num)⟩

/-- C1: for a validly constructed non-dynamic Structure with a cold region and
any chunk-aligned global index chunkId = coldIndexBegin + k * pointsPerChunk,
feeding the chunkNum of ChunkInfo(structure, chunkId) into getInfoFromNum
returns a ChunkInfo whose chunkId equals the original chunkId. -/
theorem c1_roundTrip (nullDepth baseDepth coldDepth ppc dims hint : Nat)
    (tub dyn pre : Bool) (sd st : Nat) (s : Structure) (k : Nat)
    (hmk : Structure.make nullDepth baseDepth coldDepth ppc dims hint tub dyn pre sd st
      = Except.ok s)
    (hdyn : s.dynamicChunks = false) (hcold : s.hasCold = true) :
    (s.getInfoFromNum
        (chunkInfo s (s.coldIndexBegin + k * s.pointsPerChunk)).chunkNum).chunkId
      = s.coldIndexBegin + k * s.pointsPerChunk := by
  have hwf := wf_of_make _ _ _ _ _ _ _ _ _ _ _ _ hmk
  have hp : 0 < s.pointsPerChunk := Nat.pos_of_ne_zero (hwf.ppc_pos hcold)
  have hnum : (chunkInfo s (s.coldIndexBegin + k * s.pointsPerChunk)).chunkNum = k := by
    rw [chunkInfo_fixed s _ (Or.inl hdyn)]
    show (s.coldIndexBegin + k * s.pointsPerChunk - s.coldIndexBegin) / s.pointsPerChunk = k
    rw [Nat.add_sub_cancel_left]
    exact Nat.mul_div_cancel k hp
  rw [hnum]
  simp only [Structure.getInfoFromNum]
  rw [if_pos hcold, if_neg ?_]
  · rw [chunkInfo_fixed s _ (Or.inl hdyn)]
    show s.coldIndexBegin +
        (s.coldIndexBegin + k * s.pointsPerChunk - s.coldIndexBegin) / s.pointsPerChunk *
          s.pointsPerChunk = _
    rw [Nat.add_sub_cancel_left, Nat.mul_div_cancel k hp]
  · intro hand
    rw [hdyn] at hand
    exact Bool.noConfusion hand.2

/-- Witness for C1 on the octree scenario, chunk ordinal k = 5. -/
theorem c1_roundTrip_witness :
    (scenarioOctree.getInfoFromNum
        (chunkInfo scenarioOctree
          (scenarioOctree.coldIndexBegin + 5 * scenarioOctree.pointsPerChunk)).chunkNum).chunkId
      = scenarioOctree.coldIndexBegin + 5 * scenarioOctree.pointsPerChunk :=
  c1_roundTrip 0 6 10 64 3 0 false false false 0 0 scenarioOctree 5
    (by with_unfolding_all rfl) rfl rfl

/-- C2: for a validly constructed Structure with a chunked (cold) region and
any global index at or above coldIndexBegin, the computed ChunkInfo satisfies
chunkOffset < pointsPerChunk, in both the fixed and the dynamic sparse
branch. -/
theorem c2_chunkOffset_lt (nullDepth baseDepth coldDepth ppc dims hint : Nat)
    (tub dyn pre : Bool) (sd st : Nat) (s : Structure)
    (hmk : Structure.make nullDepth baseDepth coldDepth ppc dims hint tub dyn pre sd st
      = Except.ok s)
    (hcold : s.hasCold = true) (i : Nat) (hi : s.coldIndexBegin ≤ i) :
    (chunkInfo s i).chunkOffset < (chunkInfo s i).pointsPerChunk := by
  have hwf := wf_of_make _ _ _ _ _ _ _ _ _ _ _ _ hmk
  have hp : 0 < s.pointsPerChunk := Nat.pos_of_ne_zero (hwf.ppc_pos hcold)
  by_cases hc : s.dynamicChunks = false ∨
      calcLevelIndex s.dimensions (calcDepth s.factor i) ≤ s.sparseIndexBegin
  · rw [chunkInfo_fixed s i hc]
    exact Nat.mod_lt _ hp
  · rw [chunkInfo_sparse s i hc]
    refine Nat.mod_lt _ (Nat.mul_pos hp ?_)
    rw [binaryPow_eq]
    exact two_pow_pos _

/-- Witness for C2 on the octree scenario at index coldIndexBegin + 100. -/
theorem c2_chunkOffset_lt_witness :
    (chunkInfo scenarioOctree (scenarioOctree.coldIndexBegin + 100)).chunkOffset
      < (chunkInfo scenarioOctree (scenarioOctree.coldIndexBegin + 100)).pointsPerChunk :=
  c2_chunkOffset_lt 0 6 10 64 3 0 false false false 0 0 scenarioOctree
    (by with_unfolding_all rfl) rfl (scenarioOctree.coldIndexBegin + 100)
    (Nat.le_add_right _ _)

/-- C9: for a validly constructed Structure (dimensions 2 or 3) with a cold
region and any global index at or above coldIndexBegin, the computed ChunkInfo
satisfies chunkId + chunkOffset = index, i.e. chunkId is the global index of
the first node of the chunk containing the index, in both branches. -/
theorem c9_chunkId_add_offset (nullDepth baseDepth coldDepth ppc dims hint : Nat)
    (tub dyn pre : Bool) (sd st : Nat) (s : Structure)
    (hmk : Structure.make nullDepth baseDepth coldDepth ppc dims hint tub dyn pre sd st
      = Except.ok s)
    (hdims : s.dimensions = 2 ∨ s.dimensions = 3)
    (hcold : s.hasCold = true) (i : Nat) (hi : s.coldIndexBegin ≤ i) :
    (chunkInfo s i).chunkId + (chunkInfo s i).chunkOffset = i := by
  have hwf := wf_of_make _ _ _ _ _ _ _ _ _ _ _ _ hmk
  have hD : 1 ≤ s.dimensions := by rcases hdims with h | h <;> omega
  by_cases hc : s.dynamicChunks = false ∨
      calcLevelIndex s.dimensions (calcDepth s.factor i) ≤ s.sparseIndexBegin
  · rw [chunkInfo_fixed s i hc]
    show s.coldIndexBegin + (i - s.coldIndexBegin) / s.pointsPerChunk * s.pointsPerChunk +
        (i - s.coldIndexBegin) % s.pointsPerChunk = i
    rw [add_assoc, Nat.div_add_mod', Nat.add_sub_cancel' hi]
  · rw [chunkInfo_sparse s i hc]
    have hL : calcLevelIndex s.dimensions (calcDepth s.factor i) ≤ i := by
      rw [hwf.factor_eq]
      exact (calcDepth_bounds s.dimensions hD i).1
    show calcLevelIndex s.dimensions (calcDepth s.factor i) + _ + _ = i
    rw [add_assoc, Nat.div_add_mod', Nat.add_sub_cancel' hL]

/-- Witness for C9 on the octree scenario at index coldIndexBegin + 1000. -/
theorem c9_chunkId_add_offset_witness :
    (chunkInfo scenarioOctree (scenarioOctree.coldIndexBegin + 1000)).chunkId
        + (chunkInfo scenarioOctree (scenarioOctree.coldIndexBegin + 1000)).chunkOffset
      = scenarioOctree.coldIndexBegin + 1000 :=
  c9_chunkId_add_offset 0 6 10 64 3 0 false false false 0 0 scenarioOctree
    (by with_unfolding_all rfl) (Or.inr rfl) rfl (scenarioOctree.coldIndexBegin + 1000)
    (Nat.le_add_right _ _)

/-! Arithmetic core of the chunkNum monotonicity proof. -/

lemma pointsAtDepth_eq (D d : Nat) : pointsAtDepth D d = 2 ^ (d * D) :=
  binaryPow_eq D d

lemma two_pow_div (a b : Nat) (h : b ≤ a) : (2:Nat) ^ a / 2 ^ b = 2 ^ (a - b) := by
  have hsplit : (2:Nat) ^ a = 2 ^ (a - b) * 2 ^ b := by
    rw [← pow_add]
    congr 1
    omega
  have hbpos : 0 < (2:Nat) ^ b := by
    have := two_pow_pos b
    omega
  rw [hsplit, Nat.mul_div_cancel _ hbpos]

lemma two_pow_pred_div (a e : Nat) (h : e ≤ a) :
    ((2:Nat) ^ a - 1) / 2 ^ e = 2 ^ (a - e) - 1 := by
  have hx : 1 ≤ (2:Nat) ^ (a - e) := two_pow_pos _
  have hm : 1 ≤ (2:Nat) ^ e := two_pow_pos _
  have hsplit : (2:Nat) ^ a = 2 ^ (a - e) * 2 ^ e := by
    rw [← pow_add]
    congr 1
    omega
  have hrw : (2:Nat) ^ a - 1 = 2 ^ e - 1 + (2 ^ (a - e) - 1) * 2 ^ e := by
    rw [hsplit]
    have h1 : 1 ≤ (2:Nat) ^ (a - e) * 2 ^ e := Nat.mul_le_mul hx hm
    zify [hx, hm, h1]
    ring
  rw [hrw, Nat.add_mul_div_right _ _ (by omega : 0 < (2:Nat) ^ e),
    Nat.div_eq_of_lt (by omega : (2:Nat) ^ e - 1 < 2 ^ e)]
  omega

/-- Crossing from the fixed region into a sparse depth dj > sb: the last fixed
chunk ordinal does not exceed the first chunk ordinal of depth dj. -/
lemma cross_fixed_sparse (D n cb sb dj i : Nat) (hD : 1 ≤ D) (hcbsb : cb ≤ sb)
    (hdj : sb < dj) (hilt : i < calcLevelIndex D (sb + 1)) :
    (i - calcLevelIndex D cb) / 2 ^ (n * D)
      ≤ (calcLevelIndex D sb - calcLevelIndex D cb) / 2 ^ (n * D) +
          2 ^ (sb * D) / 2 ^ (n * D) * (dj - sb) := by
  have hspan := calcLevelIndex_succ D sb hD
  have hcble : calcLevelIndex D cb ≤ calcLevelIndex D sb := calcLevelIndex_le D hcbsb
  have hbpos : 1 ≤ (2:Nat) ^ (sb * D) := two_pow_pos _
  have hib : i - calcLevelIndex D cb ≤
      (calcLevelIndex D sb - calcLevelIndex D cb) + 2 ^ (sb * D) - 1 := by
    omega
  by_cases hns : n ≤ sb
  · have hNS : n * D ≤ sb * D := Nat.mul_le_mul_right D hns
    have hppos : 0 < (2:Nat) ^ (n * D) := by
      have := two_pow_pos (n * D)
      omega
    have hq : (2:Nat) ^ (sb * D) = 2 ^ (n * D) * 2 ^ (sb * D - n * D) := by
      rw [← pow_add]
      congr 1
      omega
    have hqb : (2:Nat) ^ (sb * D) / 2 ^ (n * D) = 2 ^ (sb * D - n * D) :=
      two_pow_div _ _ hNS
    have hsum : ((calcLevelIndex D sb - calcLevelIndex D cb) + 2 ^ (sb * D)) / 2 ^ (n * D)
        = (calcLevelIndex D sb - calcLevelIndex D cb) / 2 ^ (n * D) + 2 ^ (sb * D - n * D) := by
      rw [hq, Nat.add_mul_div_left _ _ hppos]
    have h1 : (i - calcLevelIndex D cb) / 2 ^ (n * D)
        ≤ ((calcLevelIndex D sb - calcLevelIndex D cb) + 2 ^ (sb * D)) / 2 ^ (n * D) :=
      Nat.div_le_div_right (by omega)
    have h2 : (2:Nat) ^ (sb * D - n * D) ≤ 2 ^ (sb * D - n * D) * (dj - sb) :=
      Nat.le_mul_of_pos_right _ (by omega)
    rw [hqb]
    calc (i - calcLevelIndex D cb) / 2 ^ (n * D)
        ≤ ((calcLevelIndex D sb - calcLevelIndex D cb) + 2 ^ (sb * D)) / 2 ^ (n * D) := h1
      _ = (calcLevelIndex D sb - calcLevelIndex D cb) / 2 ^ (n * D) + 2 ^ (sb * D - n * D) :=
        hsum
      _ ≤ (calcLevelIndex D sb - calcLevelIndex D cb) / 2 ^ (n * D) +
          2 ^ (sb * D - n * D) * (dj - sb) := Nat.add_le_add_left h2 _
  · push_neg at hns
    have hm2 : 2 ≤ (2:Nat) ^ D := by
      calc (2:Nat) = 2 ^ 1 := (pow_one 2).symm
      _ ≤ 2 ^ D := Nat.pow_le_pow_right (by norm_num) hD
    have hsible : calcLevelIndex D sb ≤ 2 ^ (sb * D) - 1 := by
      have h1 := calcLevelIndex_mul D sb
      have h2 : calcLevelIndex D sb ≤ calcLevelIndex D sb * (2 ^ D - 1) :=
        Nat.le_mul_of_pos_right _ (by omega)
      omega
    have h2b : 2 * 2 ^ (sb * D) ≤ (2:Nat) ^ ((sb + 1) * D) := by
      have : (2:Nat) ^ ((sb + 1) * D) = 2 ^ (sb * D) * 2 ^ D := by
        rw [← pow_add]
        congr 1
        ring
      have hmul : 2 ^ (sb * D) * 2 ≤ 2 ^ (sb * D) * 2 ^ D :=
        Nat.mul_le_mul_left _ hm2
      omega
    have h3 : (2:Nat) ^ ((sb + 1) * D) ≤ 2 ^ (n * D) :=
      Nat.pow_le_pow_right (by norm_num) (Nat.mul_le_mul_right D hns)
    have hlt : i - calcLevelIndex D cb < 2 ^ (n * D) := by
      omega
    rw [Nat.div_eq_of_lt hlt]
    exact Nat.zero_le _

/-- Within the sparse region, moving from depth di to a deeper depth dj, the
last chunk ordinal of depth di does not exceed the first of depth dj. -/
lemma sparse_cross_depth (D n sb di dj i : Nat) (hD : 1 ≤ D)
    (hsdi : sb < di) (hdij : di < dj)
    (hilt : i < calcLevelIndex D (di + 1)) :
    2 ^ (sb * D) / 2 ^ (n * D) * (di - sb) +
        (i - calcLevelIndex D di) / (2 ^ (n * D) * 2 ^ ((di - sb) * D))
      ≤ 2 ^ (sb * D) / 2 ^ (n * D) * (dj - sb) := by
  have hspan := calcLevelIndex_succ D di hD
  have hio : i - calcLevelIndex D di ≤ 2 ^ (di * D) - 1 := by
    have := two_pow_pos (di * D)
    omega
  have hsm : (di - sb) * D = di * D - sb * D := tsub_mul di sb D
  have hSA : sb * D ≤ di * D := Nat.mul_le_mul_right D (le_of_lt hsdi)
  by_cases hns : n ≤ sb
  · have hNS : n * D ≤ sb * D := Nat.mul_le_mul_right D hns
    have hcp : (2:Nat) ^ (sb * D) / 2 ^ (n * D) = 2 ^ (sb * D - n * D) :=
      two_pow_div _ _ hNS
    have hPe : (2:Nat) ^ (n * D) * 2 ^ ((di - sb) * D) = 2 ^ (n * D + (di * D - sb * D)) := by
      rw [← pow_add, hsm]
    have hee : n * D + (di * D - sb * D) ≤ di * D := by omega
    have heq : ((2:Nat) ^ (di * D) - 1) / 2 ^ (n * D + (di * D - sb * D))
        = 2 ^ (di * D - (n * D + (di * D - sb * D))) - 1 := two_pow_pred_div _ _ hee
    have hexp : di * D - (n * D + (di * D - sb * D)) = sb * D - n * D := by omega
    have hdiv2 : (i - calcLevelIndex D di) / (2 ^ (n * D) * 2 ^ ((di - sb) * D))
        ≤ 2 ^ (sb * D - n * D) - 1 := by
      rw [hPe]
      calc (i - calcLevelIndex D di) / 2 ^ (n * D + (di * D - sb * D))
          ≤ ((2:Nat) ^ (di * D) - 1) / 2 ^ (n * D + (di * D - sb * D)) :=
            Nat.div_le_div_right hio
        _ = 2 ^ (sb * D - n * D) - 1 := by rw [heq, hexp]
    have h5 : di - sb + 1 ≤ dj - sb := by omega
    have hcpos : 1 ≤ (2:Nat) ^ (sb * D - n * D) := two_pow_pos _
    rw [hcp]
    calc 2 ^ (sb * D - n * D) * (di - sb) +
          (i - calcLevelIndex D di) / (2 ^ (n * D) * 2 ^ ((di - sb) * D))
        ≤ 2 ^ (sb * D - n * D) * (di - sb) + (2 ^ (sb * D - n * D) - 1) :=
          Nat.add_le_add_left hdiv2 _
      _ ≤ 2 ^ (sb * D - n * D) * (di - sb) + 2 ^ (sb * D - n * D) := by omega
      _ = 2 ^ (sb * D - n * D) * (di - sb + 1) := (Nat.mul_succ _ _).symm
      _ ≤ 2 ^ (sb * D - n * D) * (dj - sb) := Nat.mul_le_mul_left _ h5
  · push_neg at hns
    have hSN : sb * D < n * D := by
      have h0 : 0 < D := hD
      exact (Nat.mul_lt_mul_right h0).mpr hns
    have hcp : (2:Nat) ^ (sb * D) / 2 ^ (n * D) = 0 :=
      Nat.div_eq_of_lt (Nat.pow_lt_pow_right (by norm_num) hSN)
    have hPgt : i - calcLevelIndex D di < 2 ^ (n * D) * 2 ^ ((di - sb) * D) := by
      have hbig : (2:Nat) ^ (di * D) ≤ 2 ^ (n * D + (di - sb) * D) := by
        apply Nat.pow_le_pow_right (by norm_num)
        omega
      have := two_pow_pos (di * D)
      calc i - calcLevelIndex D di ≤ 2 ^ (di * D) - 1 := hio
        _ < 2 ^ (di * D) := by omega
        _ ≤ 2 ^ (n * D + (di - sb) * D) := hbig
        _ = 2 ^ (n * D) * 2 ^ ((di - sb) * D) := pow_add 2 _ _
    rw [hcp, Nat.div_eq_of_lt hPgt]
    simp

/-- chunkNum is non-decreasing in the global index over the chunked region,
for any Structure satisfying the constructor invariants. -/
lemma chunkNum_mono_of_wf (s : Structure) (hwf : WF s) (hD : 1 ≤ s.dimensions)
    (hcold : s.hasCold = true) (i j : Nat)
    (hij : i ≤ j) :
    (chunkInfo s i).chunkNum ≤ (chunkInfo s j).chunkNum := by
  obtain ⟨hfac, hb4, hcidx, hsibx, hcbsb, hppos', hpw'⟩ := hwf
  have hpw := hpw' hcold
  have hbi := calcDepth_bounds s.dimensions hD i
  have hbj := calcDepth_bounds s.dimensions hD j
  have hdm := calcDepth_mono s.dimensions hD hij
  have hfi : calcDepth s.factor i = calcDepth (2 ^ s.dimensions) i := by rw [hfac]
  have hfj : calcDepth s.factor j = calcDepth (2 ^ s.dimensions) j := by rw [hfac]
  by_cases hcj : s.dynamicChunks = false ∨
      calcLevelIndex s.dimensions (calcDepth s.factor j) ≤ s.sparseIndexBegin
  · have hci : s.dynamicChunks = false ∨
        calcLevelIndex s.dimensions (calcDepth s.factor i) ≤ s.sparseIndexBegin := by
      rcases hcj with h | h
      · exact Or.inl h
      · refine Or.inr (le_trans ?_ h)
        rw [hfi, hfj]
        exact calcLevelIndex_le _ hdm
    rw [chunkInfo_fixed s i hci, chunkInfo_fixed s j hcj]
    exact Nat.div_le_div_right (Nat.sub_le_sub_right hij _)
  · have hdyn : s.dynamicChunks = true := by
      rcases Bool.eq_false_or_eq_true s.dynamicChunks with h | h
      · exact h
      · exact absurd (Or.inl h) hcj
    have hsbj : s.sparseDepthBegin < calcDepth (2 ^ s.dimensions) j := by
      by_contra hle
      push_neg at hle
      refine hcj (Or.inr ?_)
      rw [hfj, hsibx]
      exact calcLevelIndex_le _ hle
    rw [chunkInfo_sparse s j hcj]
    by_cases hci : s.dynamicChunks = false ∨
        calcLevelIndex s.dimensions (calcDepth s.factor i) ≤ s.sparseIndexBegin
    · rw [chunkInfo_fixed s i hci]
      have hdi_le : calcDepth (2 ^ s.dimensions) i ≤ s.sparseDepthBegin := by
        rcases hci with h | h
        · rw [h] at hdyn
          exact Bool.noConfusion hdyn
        · rw [hfi, hsibx] at h
          exact levelIndex_le_inv s.dimensions hD h
      have hilt : i < calcLevelIndex s.dimensions (s.sparseDepthBegin + 1) := by
        have h1 := hbi.2
        exact lt_of_lt_of_le h1 (calcLevelIndex_le _ (by omega))
      dsimp only
      rw [hcidx, hsibx, hpw, hfj, pointsAtDepth_eq]
      refine le_trans ?_ (Nat.le_add_right _ _)
      exact cross_fixed_sparse s.dimensions s.nominalChunkDepth s.baseDepthEnd
        s.sparseDepthBegin (calcDepth (2 ^ s.dimensions) j) i hD hcbsb hsbj hilt
    · rw [chunkInfo_sparse s i hci]
      have hsbi : s.sparseDepthBegin < calcDepth (2 ^ s.dimensions) i := by
        by_contra hle
        push_neg at hle
        refine hci (Or.inr ?_)
        rw [hfi, hsibx]
        exact calcLevelIndex_le _ hle
      dsimp only
      rw [hcidx, hsibx, hpw, hfi, hfj]
      simp only [binaryPow_eq, pointsAtDepth_eq]
      rcases Nat.eq_or_lt_of_le hdm with heq | hlt
      · rw [← heq]
        exact Nat.add_le_add_left (Nat.div_le_div_right (Nat.sub_le_sub_right hij _)) _
      · have key := sparse_cross_depth s.dimensions s.nominalChunkDepth s.sparseDepthBegin
          (calcDepth (2 ^ s.dimensions) i) (calcDepth (2 ^ s.dimensions) j) i hD hsbi hlt hbi.2
        rw [add_assoc]
        refine le_trans (Nat.add_le_add_left ?_ _) (Nat.le_add_right _ _)
        exact key

/-- C6 counterexample: in the octree scenario the successive chunked-region
indices 37449 and 37450 lie at the same depth (6) and get the SAME chunkNum
(both fall in chunk 0), so chunkNum is not strictly increasing with the index
within a fixed depth. -/
theorem c6_counterexample :
    Structure.make 0 6 10 64 3 0 false false false 0 0 = Except.ok scenarioOctree ∧
      scenarioOctree.coldIndexBegin ≤ 37449 ∧ (37449 : Nat) < 37450 ∧
      (chunkInfo scenarioOctree 37449).depth = (chunkInfo scenarioOctree 37450).depth ∧
      (chunkInfo scenarioOctree 37449).chunkNum = (chunkInfo scenarioOctree 37450).chunkNum := by
  have hdyn : scenarioOctree.dynamicChunks = false := rfl
  have hd1 : calcDepth scenarioOctree.factor 37449 = 6 :=
    calcDepth_eval 3 (by with_unfolding_all rfl) (by norm_num) (by decide) (by decide)
  have hd2 : calcDepth scenarioOctree.factor 37450 = 6 :=
    calcDepth_eval 3 (by with_unfolding_all rfl) (by norm_num) (by decide) (by decide)
  refine ⟨by with_unfolding_all rfl, by with_unfolding_all decide, by norm_num, ?_, ?_⟩
  · rw [chunkInfo_fixed _ _ (Or.inl hdyn), chunkInfo_fixed _ _ (Or.inl hdyn)]
    show calcDepth scenarioOctree.factor 37449 = calcDepth scenarioOctree.factor 37450
    rw [hd1, hd2]
  · rw [chunkInfo_fixed _ _ (Or.inl hdyn), chunkInfo_fixed _ _ (Or.inl hdyn)]
    show (37449 - scenarioOctree.coldIndexBegin) / scenarioOctree.pointsPerChunk =
      (37450 - scenarioOctree.coldIndexBegin) / scenarioOctree.pointsPerChunk
    with_unfolding_all rfl

/-- C6 amended: for a validly constructed Structure (dimensions 2 or 3) with a
cold region, chunkNum is monotone non-decreasing in the global index over the
chunked region — non-decreasing (not strictly increasing) within a fixed
depth, because indices of the same chunk share a chunkNum, and non-decreasing
across depth boundaries. -/
theorem c6_chunkNum_monotone (nullDepth baseDepth coldDepth ppc dims hint : Nat)
    (tub dyn pre : Bool) (sd st : Nat) (s : Structure)
    (hmk : Structure.make nullDepth baseDepth coldDepth ppc dims hint tub dyn pre sd st
      = Except.ok s)
    (hdims : s.dimensions = 2 ∨ s.dimensions = 3)
    (hcold : s.hasCold = true) (i j : Nat) (hi : s.coldIndexBegin ≤ i) (hij : i ≤ j) :
    (chunkInfo s i).chunkNum ≤ (chunkInfo s j).chunkNum := by
  have hwf := wf_of_make _ _ _ _ _ _ _ _ _ _ _ _ hmk
  have hD : 1 ≤ s.dimensions := by rcases hdims with h | h <;> omega
  exact chunkNum_mono_of_wf s hwf hD hcold i j hij

/-- Witness for the amended C6 on the octree scenario. -/
theorem c6_chunkNum_monotone_witness :
    (chunkInfo scenarioOctree 37449).chunkNum ≤ (chunkInfo scenarioOctree 40000).chunkNum :=
  c6_chunkNum_monotone 0 6 10 64 3 0 false false false 0 0 scenarioOctree
    (by with_unfolding_all rfl) (Or.inr rfl) rfl 37449 40000
    (by with_unfolding_all decide) (by norm_num)

end Entwine
